import Mathlib

/-!
Verification of the core domain logic of the Foodie MX restaurant dashboard.

The embedding follows the TypeScript source:
  - `src/model/Types.ts`   : the data model (menu items, tables, orders);
  - `src/model/Utils.ts`   : day arithmetic, window predicate, order pricing;
  - `src/model/SeedData.ts`: the seeded menu and orders;
  - `src/App.tsx`          : dashboard aggregates and the state mutators.

Modelling conventions:
  - JavaScript numbers are embedded as exact rationals (`ℚ`);
  - timestamps are integer milliseconds since the epoch (`Int`); local-time
    day boundaries are taken relative to a fixed timezone offset `tz`
    (milliseconds east of UTC), so `startOfDay` is the local midnight
    containing the instant, exactly as `new Date(y, m, d)` computes it for
    a fixed-offset clock;
  - `Record<string, MenuItem>` lookups are embedded as `String → Option MenuItem`;
  - `Array.prototype.sort` with comparator `(a, b) => b.qty - a.qty` is a
    stable sort by descending quantity; any stable sort agrees with it
    pointwise, so we embed it with `List.mergeSort`.
-/

namespace Foodie

/-- Order lifecycle states, from `src/model/Types.ts`. -/
inductive OrderStatus where
  | in_progress
  | served
  | paid
deriving DecidableEq, Repr

/-- Table states, from `src/model/Types.ts`. -/
inductive TableStatus where
  | available
  | occupied
  | needs_cleaning
deriving DecidableEq, Repr

/-- A named price adjustment on a menu item (`Modifier` in `Types.ts`). -/
structure Modifier where
  name : String
  priceDelta : ℚ
deriving DecidableEq, Repr

/-- A catalog entry (`MenuItem` in `Types.ts`). -/
structure MenuItem where
  id : String
  name : String
  category : String
  price : ℚ
  modifiers : List Modifier
deriving DecidableEq, Repr

/-- A physical table (`Table` in `Types.ts`). -/
structure Table where
  id : String
  name : String
  status : TableStatus
deriving DecidableEq, Repr

/-- One line of an order (`OrderItem` in `Types.ts`); `modifierName` is the
optional `modifierName?: string` field. -/
structure OrderItem where
  menuItemId : String
  modifierName : Option String
  qty : ℚ
deriving DecidableEq, Repr

/-- An order (`Order` in `Types.ts`); `createdAt` is the parsed timestamp of
the ISO string, in milliseconds. -/
structure Order where
  id : String
  tableId : String
  items : List OrderItem
  status : OrderStatus
  createdAt : Int
deriving DecidableEq, Repr

/-- `menuIndex`: a `Record<string, MenuItem>` embedded as a partial map. -/
abbrev MenuIndex := String → Option MenuItem

/-- Milliseconds per day, the constant `86400000` of `Utils.ts`. -/
def msPerDay : Int := 86400000

/-- `startOfDay` from `Utils.ts`: the local midnight of the day containing
`t`, for a clock at fixed offset `tz` milliseconds east of UTC. -/
def startOfDay (tz t : Int) : Int := t - (t + tz) % msPerDay

/-- `isSameDay` from `Utils.ts`: both instants fall on the same local day. -/
def isSameDay (tz a b : Int) : Bool := startOfDay tz a == startOfDay tz b

/-- `withinLastNDays` from `Utils.ts`: `start ≤ d ≤ now` where
`start = startOfDay(now) - (n-1) * 86400000`. -/
def withinLastNDays (tz now d n : Int) : Bool :=
  decide (startOfDay tz now - (n - 1) * msPerDay ≤ d) && decide (d ≤ now)

/-- `computeOrderTotal` from `Utils.ts`.  The modifier lookup mirrors
`it.modifierName ? mi.modifiers.find(m => m.name === it.modifierName) : undefined`;
note that the empty string is falsy in JavaScript, so an empty `modifierName`
skips the lookup. -/
def computeOrderTotal (order : Order) (menuIndex : MenuIndex) : ℚ :=
  order.items.foldl (fun sum it =>
    match menuIndex it.menuItemId with
    | none => sum
    | some mi =>
      let modifier : Option Modifier :=
        match it.modifierName with
        | some mn => if mn = "" then none else mi.modifiers.find? (fun m => m.name == mn)
        | none => none
      let price := mi.price + (match modifier with | some m => m.priceDelta | none => 0)
      sum + price * it.qty) 0

/-- `Object.fromEntries(menuItems.map(m => [m.id, m]))` from `App.tsx`:
a later entry overwrites an earlier one with the same key, so lookup
returns the last matching menu item. -/
def menuIndexOf (ms : List MenuItem) : MenuIndex :=
  fun id => ms.reverse.find? (fun m => m.id == id)

/-- `seedMenu` from `SeedData.ts`. -/
def seedMenu : List MenuItem :=
  [ { id := "mi_pizza", name := "Margherita Pizza", category := "Entrees", price := 12,
      modifiers := [ { name := "Extra Cheese", priceDelta := 2 },
                     { name := "Gluten-Free Crust", priceDelta := 3 } ] },
    { id := "mi_burger", name := "Classic Burger", category := "Entrees", price := 11,
      modifiers := [ { name := "Bacon", priceDelta := 5/2 },
                     { name := "Cheddar", priceDelta := 3/2 } ] },
    { id := "mi_salad", name := "Caesar Salad", category := "Salads", price := 9,
      modifiers := [ { name := "Grilled Chicken", priceDelta := 3 },
                     { name := "Anchovies", priceDelta := 1 } ] },
    { id := "mi_coffee", name := "Iced Coffee", category := "Drinks", price := 4,
      modifiers := [ { name := "Oat Milk", priceDelta := 1/2 },
                     { name := "Vanilla Syrup", priceDelta := 1/2 } ] } ]

/-- `seedOrders` from `SeedData.ts`; the four `uid()` ids are parameters. -/
def seedOrders (i1 i2 i3 i4 : String) (now : Int) : List Order :=
  [ { id := i1, tableId := "t1",
      items := [ { menuItemId := "mi_pizza", modifierName := none, qty := 2 },
                 { menuItemId := "mi_coffee", modifierName := some "Oat Milk", qty := 2 } ],
      status := .in_progress, createdAt := now },
    { id := i2, tableId := "t2",
      items := [ { menuItemId := "mi_burger", modifierName := some "Bacon", qty := 1 },
                 { menuItemId := "mi_salad", modifierName := some "Grilled Chicken", qty := 1 } ],
      status := .served, createdAt := now },
    { id := i3, tableId := "t3",
      items := [ { menuItemId := "mi_burger", modifierName := none, qty := 1 },
                 { menuItemId := "mi_coffee", modifierName := some "Vanilla Syrup", qty := 1 } ],
      status := .paid, createdAt := now - 1 * msPerDay },
    { id := i4, tableId := "t4",
      items := [ { menuItemId := "mi_salad", modifierName := none, qty := 2 } ],
      status := .paid, createdAt := now - 7 * msPerDay } ]

/-- `Number(total.toFixed(2))` from `App.tsx`: rounding to two decimal
places.  ECMAScript's `toFixed` first strips the sign of a negative value
and then picks the integer `n` with `n / 100` closest to the absolute
value, taking the larger `n` on a tie — i.e. it rounds the absolute value
half up (Mathlib's `round`) and restores the sign, so half-cent ties
round away from zero in both directions. -/
def round2 (q : ℚ) : ℚ :=
  if q < 0 then -((round (-q * 100) : ℚ) / 100) else (round (q * 100) : ℚ) / 100

/-- `daySum` from `App.tsx` (the "Today" KPI): sum of `computeOrderTotal`
over served/paid orders created on the current local day. -/
def daySum (tz now : Int) (orders : List Order) (idx : MenuIndex) : ℚ :=
  (orders.filter (fun o =>
      (o.status == .paid || o.status == .served) && isSameDay tz o.createdAt now)).foldl
    (fun s o => s + computeOrderTotal o idx) 0

/-- `weekSum` from `App.tsx` (the "Last 7 days" KPI). -/
def weekSum (tz now : Int) (orders : List Order) (idx : MenuIndex) : ℚ :=
  (orders.filter (fun o =>
      (o.status == .paid || o.status == .served) && withinLastNDays tz now o.createdAt 7)).foldl
    (fun s o => s + computeOrderTotal o idx) 0

/-- One `map.set(k, (map.get(k) ?? 0) + qty)` step of the top-seller
aggregation in `App.tsx`: a `Map` keeps insertion order, updating an
existing key in place and appending a fresh key. -/
def bump (acc : List (String × ℚ)) (k : String) (q : ℚ) : List (String × ℚ) :=
  match acc with
  | [] => [(k, q)]
  | (k2, q2) :: rest => if k2 = k then (k2, q2 + q) :: rest else (k2, q2) :: bump rest k q

/-- The `Map` built by `topSellers` in `App.tsx`: quantities aggregated per
`menuItemId` over every item of every order, in first-encounter key order. -/
def aggQty (orders : List Order) : List (String × ℚ) :=
  orders.foldl (fun acc o => o.items.foldl (fun a it => bump a it.menuItemId it.qty) acc) []

/-- `menuIndex[id]?.name ?? id` from `App.tsx`. -/
def resolveName (idx : MenuIndex) (id : String) : String :=
  match idx id with
  | some mi => mi.name
  | none => id

/-- The comparator `(a, b) => b.qty - a.qty` of `App.tsx` as a Boolean
"not-after" relation: `a` may stay before `b` when `b.qty ≤ a.qty`. -/
def qtyLE (a b : String × ℚ) : Bool := decide (b.2 ≤ a.2)

/-- `topSellers` from `App.tsx`: aggregate, resolve names, stably sort by
descending quantity, keep the first 7 rows. -/
def topSellers (orders : List Order) (idx : MenuIndex) : List (String × ℚ) :=
  (((aggQty orders).map (fun p => (resolveName idx p.1, p.2))).mergeSort qtyLE).take 7

/-- `last14Days` from `App.tsx`: for `i = 0..13` the bucket for the day
`now - (13-i)` days, carrying the two-decimal rounded day total. -/
def last14Days (tz now : Int) (orders : List Order) (idx : MenuIndex) : List (Int × ℚ) :=
  (List.range 14).map (fun i =>
    let d := now - ((13 : Int) - (i : Nat)) * msPerDay
    (d, round2 ((orders.filter (fun o =>
        (o.status == .paid || o.status == .served) && isSameDay tz o.createdAt d)).foldl
      (fun s o => s + computeOrderTotal o idx) 0)))

/-- The application state: the three collections owned by `App.tsx`. -/
structure AppState where
  menuItems : List MenuItem
  tables : List Table
  orders : List Order
deriving DecidableEq, Repr

/-- `createOrder` from `App.tsx`: prepend a fresh `in_progress` order and
mark the referenced table occupied.  The fresh `uid()` and `Date.now()` are
the parameters `id` and `now`. -/
def createOrder (s : AppState) (id : String) (now : Int) (tableId : String)
    (items : List OrderItem) : AppState :=
  let newOrder : Order :=
    { id := id, tableId := tableId, items := items, status := .in_progress, createdAt := now }
  { s with
    orders := newOrder :: s.orders,
    tables := s.tables.map (fun t => if t.id == tableId then { t with status := .occupied } else t) }

/-- `updateOrderStatus` from `App.tsx`: rewrite the matching order's status;
when the new status is `paid`, look the order up in the pre-update list and
mark its table `needs_cleaning`. -/
def updateOrderStatus (s : AppState) (orderId : String) (st : OrderStatus) : AppState :=
  let orders2 := s.orders.map (fun o => if o.id == orderId then { o with status := st } else o)
  let tables2 :=
    if st = .paid then
      match s.orders.find? (fun o => o.id == orderId) with
      | some o => s.tables.map (fun t =>
          if t.id == o.tableId then { t with status := .needs_cleaning } else t)
      | none => s.tables
    else s.tables
  { s with orders := orders2, tables := tables2 }

/-- `markTableClean` from `App.tsx`: set the matching table to `available`. -/
def markTableClean (s : AppState) (tableId : String) : AppState :=
  { s with tables := s.tables.map (fun t =>
      if t.id == tableId then { t with status := .available } else t) }

/-! ### Claim-side definitions

These follow the wording of the specification, to be compared with the
definitions embedded from the source. -/

/-- Modifier delta exactly as the spec words it: whenever `modifierName` is
set, look the modifier up by exact name match; a missing match contributes
a zero delta. -/
def claimModDelta (mi : MenuItem) : Option String → ℚ
  | none => 0
  | some mn =>
    match mi.modifiers.find? (fun m => m.name == mn) with
    | some m => m.priceDelta
    | none => 0

/-- Line contribution exactly as the spec words it: an absent menu item
contributes 0, otherwise (base price + modifier delta) × qty. -/
def claimLine (idx : MenuIndex) (it : OrderItem) : ℚ :=
  match idx it.menuItemId with
  | none => 0
  | some mi => (mi.price + claimModDelta mi it.modifierName) * it.qty

/-- Modifier delta as the code actually behaves: an empty `modifierName`
is treated as unset (falsy in JavaScript), otherwise exact name match with
zero delta on a miss. -/
def amendedModDelta (mi : MenuItem) : Option String → ℚ
  | none => 0
  | some mn =>
    if mn = "" then 0
    else
      match mi.modifiers.find? (fun m => m.name == mn) with
      | some m => m.priceDelta
      | none => 0

/-- Line contribution with the empty-string amendment. -/
def amendedLine (idx : MenuIndex) (it : OrderItem) : ℚ :=
  match idx it.menuItemId with
  | none => 0
  | some mi => (mi.price + amendedModDelta mi it.modifierName) * it.qty

/-- The sequence of `menuItemId` references of all items of all orders, in
traversal order. -/
def encounters (orders : List Order) : List String :=
  orders.flatMap (fun o => o.items.map (fun it => it.menuItemId))

/-- The distinct keys of a sequence, each kept at its first occurrence. -/
def firstOccKeys (ks : List String) : List String :=
  ks.foldl (fun acc k => if k ∈ acc then acc else acc ++ [k]) []

/-- Total quantity of one menu item across all orders regardless of
status, as the spec words the top-seller aggregation. -/
def totalQty (orders : List Order) (id : String) : ℚ :=
  (orders.map (fun o =>
    ((o.items.filter (fun it => it.menuItemId == id)).map OrderItem.qty).sum)).sum

/-- The top-seller rows as the spec words them: one row per distinct
`menuItemId` in first-encounter order, carrying the aggregated quantity,
with the id resolved to the menu name and the raw id as fallback. -/
def specRows (orders : List Order) (idx : MenuIndex) : List (String × ℚ) :=
  (firstOccKeys (encounters orders)).map (fun id =>
    ((match idx id with | some mi => mi.name | none => id), totalQty orders id))

/-! ### Helper lemmas -/

lemma startOfDay_le (tz t : Int) : startOfDay tz t ≤ t := by
  have h := Int.emod_nonneg (t + tz) (by norm_num [msPerDay] : msPerDay ≠ 0)
  simp only [startOfDay]
  omega

lemma lt_startOfDay_add (tz t : Int) : t < startOfDay tz t + msPerDay := by
  have h := Int.emod_lt_of_pos (t + tz) (by norm_num [msPerDay] : 0 < msPerDay)
  simp only [startOfDay]
  omega

lemma startOfDay_add_mul (tz t k : Int) :
    startOfDay tz (t + k * msPerDay) = startOfDay tz t + k * msPerDay := by
  simp only [startOfDay]
  have h : t + k * msPerDay + tz = t + tz + msPerDay * k := by ring
  rw [h, Int.add_mul_emod_self_left]
  ring

lemma foldl_add_eq {α : Type} (f : α → ℚ) :
    ∀ (l : List α) (a : ℚ), l.foldl (fun s x => s + f x) a = a + (l.map f).sum
  | [], a => by simp
  | x :: xs, a => by
    rw [List.foldl_cons, foldl_add_eq f xs (a + f x)]
    simp [add_assoc]

lemma computeOrderTotal_eq_sum (o : Order) (idx : MenuIndex) :
    computeOrderTotal o idx = (o.items.map (amendedLine idx)).sum := by
  have hbody : ∀ (s : ℚ) (it : OrderItem),
      (match idx it.menuItemId with
       | none => s
       | some mi =>
         let modifier : Option Modifier :=
           match it.modifierName with
           | some mn => if mn = "" then none else mi.modifiers.find? (fun m => m.name == mn)
           | none => none
         let price := mi.price + (match modifier with | some m => m.priceDelta | none => 0)
         s + price * it.qty) = s + amendedLine idx it := by
    intro s it
    cases h : idx it.menuItemId with
    | none => simp [amendedLine, h]
    | some mi =>
      cases hm : it.modifierName with
      | none => simp [amendedLine, amendedModDelta, h, hm]
      | some mn =>
        by_cases he : mn = ""
        · simp [amendedLine, amendedModDelta, h, hm, he]
        · cases hf : mi.modifiers.find? (fun m => m.name == mn) with
          | none => simp [amendedLine, amendedModDelta, h, hm, he, hf]
          | some m => simp [amendedLine, amendedModDelta, h, hm, he, hf]
  unfold computeOrderTotal
  calc o.items.foldl (fun sum it =>
        match idx it.menuItemId with
        | none => sum
        | some mi =>
          let modifier : Option Modifier :=
            match it.modifierName with
            | some mn => if mn = "" then none else mi.modifiers.find? (fun m => m.name == mn)
            | none => none
          let price := mi.price + (match modifier with | some m => m.priceDelta | none => 0)
          sum + price * it.qty) 0
      = o.items.foldl (fun s it => s + amendedLine idx it) 0 := by
        apply List.foldl_ext
        intro a x _
        exact hbody a x
    _ = 0 + (o.items.map (amendedLine idx)).sum := foldl_add_eq (amendedLine idx) o.items 0
    _ = (o.items.map (amendedLine idx)).sum := by ring

/-! ### Concrete data for counterexamples -/

/-- A menu item that carries a modifier whose name is the empty string
(the menu form allows saving a modifier with an empty name). -/
def cexMenuItem : MenuItem :=
  { id := "x", name := "X", category := "c", price := 10,
    modifiers := [ { name := "", priceDelta := 5 } ] }

/-- A one-entry menu index holding `cexMenuItem`. -/
def cexIndex : MenuIndex := fun s => if s = "x" then some cexMenuItem else none

/-- An order whose single item names the empty-string modifier. -/
def cexOrder : Order :=
  { id := "o", tableId := "t", status := .served, createdAt := 0,
    items := [ { menuItemId := "x", modifierName := some "", qty := 1 } ] }

/-! ### Claim C1 -/

/-- Claim C1, counterexample: with `modifierName = some ""` and a modifier
whose name is the empty string, the code treats the modifier as unset
(the empty string is falsy in JavaScript) and totals 10, while the claim's
exact-name-match rule totals 15. -/
theorem computeOrderTotal_claim_cex :
    computeOrderTotal cexOrder cexIndex ≠ (cexOrder.items.map (claimLine cexIndex)).sum := by
  have hcode : computeOrderTotal cexOrder cexIndex = 10 := by
    simp [computeOrderTotal, cexOrder, cexIndex, cexMenuItem]
  have hclaim : (cexOrder.items.map (claimLine cexIndex)).sum = 15 := by
    simp [claimLine, claimModDelta, cexOrder, cexIndex, cexMenuItem, List.find?]
    norm_num
  rw [hcode, hclaim]
  norm_num

/-- Claim C1 (amended): `computeOrderTotal` equals the sum over the order's
items of (base price + modifier delta) × qty, where an item whose
`menuItemId` is absent from the index contributes 0, an item whose
`modifierName` is absent **or the empty string** contributes with delta 0,
and otherwise a `modifierName` with no exact-name match contributes with
delta 0.  The function is total (never fails) and deterministic. -/
theorem computeOrderTotal_spec (order : Order) (menuIndex : MenuIndex) :
    computeOrderTotal order menuIndex = (order.items.map (amendedLine menuIndex)).sum :=
  computeOrderTotal_eq_sum order menuIndex

/-! ### Window lemmas for the 7-day KPI -/

lemma withinLastNDays_now (tz now : Int) : withinLastNDays tz now now 7 = true := by
  have h1 := startOfDay_le tz now
  simp only [withinLastNDays, Bool.and_eq_true, decide_eq_true_eq, msPerDay] at *
  omega

lemma withinLastNDays_one_day_ago (tz now : Int) :
    withinLastNDays tz now (now - 1 * msPerDay) 7 = true := by
  have h1 := startOfDay_le tz now
  simp only [withinLastNDays, Bool.and_eq_true, decide_eq_true_eq, msPerDay] at *
  omega

lemma withinLastNDays_seven_days_ago (tz now : Int) :
    withinLastNDays tz now (now - 7 * msPerDay) 7 = false := by
  have h2 := lt_startOfDay_add tz now
  simp only [withinLastNDays, Bool.and_eq_false_iff, decide_eq_false_iff_not, not_le,
    msPerDay] at *
  omega

lemma seedIdx_burger : menuIndexOf seedMenu "mi_burger" = some
    { id := "mi_burger", name := "Classic Burger", category := "Entrees", price := 11,
      modifiers := [ { name := "Bacon", priceDelta := 5/2 },
                     { name := "Cheddar", priceDelta := 3/2 } ] } := rfl

lemma seedIdx_salad : menuIndexOf seedMenu "mi_salad" = some
    { id := "mi_salad", name := "Caesar Salad", category := "Salads", price := 9,
      modifiers := [ { name := "Grilled Chicken", priceDelta := 3 },
                     { name := "Anchovies", priceDelta := 1 } ] } := rfl

lemma seedIdx_coffee : menuIndexOf seedMenu "mi_coffee" = some
    { id := "mi_coffee", name := "Iced Coffee", category := "Drinks", price := 4,
      modifiers := [ { name := "Oat Milk", priceDelta := 1/2 },
                     { name := "Vanilla Syrup", priceDelta := 1/2 } ] } := rfl

/-- On the seed data the 7-day KPI counts exactly the served order of today
(25.50) and the paid order of one day ago (15.50): the order created seven
days ago falls outside the window. -/
lemma weekSum_seed (tz now : Int) (i1 i2 i3 i4 : String) :
    weekSum tz now (seedOrders i1 i2 i3 i4 now) (menuIndexOf seedMenu) = 41 := by
  have h2 := withinLastNDays_now tz now
  have h3 := withinLastNDays_one_day_ago tz now
  have h4 := withinLastNDays_seven_days_ago tz now
  have s1 : (OrderStatus.in_progress == OrderStatus.paid
      || OrderStatus.in_progress == OrderStatus.served) = false := rfl
  have s2 : (OrderStatus.served == OrderStatus.paid
      || OrderStatus.served == OrderStatus.served) = true := rfl
  have s3 : (OrderStatus.paid == OrderStatus.paid
      || OrderStatus.paid == OrderStatus.served) = true := rfl
  simp only [weekSum, seedOrders, List.filter_cons, List.filter_nil, h2, h3, h4, s1, s2, s3,
    Bool.false_and, Bool.true_and, if_true, if_false, Bool.and_self, ite_true, ite_false,
    List.foldl_cons, List.foldl_nil]
  simp [computeOrderTotal, seedIdx_burger, seedIdx_salad, seedIdx_coffee]
  norm_num

/-! ### Claim C2 -/

/-- Claim C2, counterexample: at query time `now = 1000000000000` (UTC
clock) a timestamp lying exactly 7 days in the past is rejected by the
window `[startOfToday - 6 days, now]`, because `now - 7 days` precedes
`startOfToday - 6 days` whenever `now < startOfToday + 1 day`, which always
holds. -/
theorem withinLastNDays_boundary_cex :
    withinLastNDays 0 1000000000000 (1000000000000 - 7 * msPerDay) 7 = false := by decide

/-- Claim C2 (amended): the inclusive window `[startOfToday - (N-1) days,
now]` used by `withinLastNDays` never admits a timestamp lying exactly
7 days in the past, so on the seed data of §6 the "Last 7 days" sales sum
excludes the 7-day-ago paid order: it equals 41, the total of today's
served order (25.50) plus the 1-day-ago paid order (15.50). -/
theorem weekSum_excludes_boundary (tz now : Int) (i1 i2 i3 i4 : String) :
    withinLastNDays tz now (now - 7 * msPerDay) 7 = false
    ∧ weekSum tz now (seedOrders i1 i2 i3 i4 now) (menuIndexOf seedMenu) = 41 :=
  ⟨withinLastNDays_seven_days_ago tz now, weekSum_seed tz now i1 i2 i3 i4⟩

lemma last14Days_length (tz now : Int) (orders : List Order) (idx : MenuIndex) :
    (last14Days tz now orders idx).length = 14 := by
  simp [last14Days]

lemma last14Days_getLast (tz now : Int) (orders : List Order) (idx : MenuIndex) :
    (last14Days tz now orders idx).getLast? = some (now, round2 (daySum tz now orders idx)) := by
  have h13 : now - ((13 : Int) - ((13 : Nat) : Int)) * msPerDay = now := by norm_num
  simp only [last14Days, daySum]
  rw [List.getLast?_eq_getElem?]
  simp [h13]

lemma last14Days_day (tz now : Int) (orders : List Order) (idx : MenuIndex) (i : Fin 14) :
    ((last14Days tz now orders idx)[(i : Nat)]?).map Prod.fst
      = some (now - ((13 : Int) - (i : Nat)) * msPerDay) := by
  simp [last14Days, i.isLt]

lemma last14Days_calday (tz now : Int) (orders : List Order) (idx : MenuIndex) (i : Fin 14) :
    ((last14Days tz now orders idx)[(i : Nat)]?).map (fun b => startOfDay tz b.1)
      = some (startOfDay tz now - ((13 : Int) - (i : Nat)) * msPerDay) := by
  have hx : now - ((13 : Int) - (i : Nat)) * msPerDay
      = now + (-((13 : Int) - (i : Nat))) * msPerDay := by ring
  have hd := last14Days_day tz now orders idx i
  cases hq : (last14Days tz now orders idx)[(i : Nat)]? with
  | none => rw [hq] at hd; simp at hd
  | some b =>
    rw [hq] at hd
    simp only [Option.map] at hd ⊢
    rw [Option.some_inj] at hd ⊢
    rw [hd, hx, startOfDay_add_mul]
    ring

/-- A menu item priced at a fraction of a cent, to expose the two-decimal
rounding of the trend buckets. -/
def fracMenuItem : MenuItem :=
  { id := "a", name := "A", category := "c", price := 1/1000, modifiers := [] }

/-- A one-entry menu index holding `fracMenuItem`. -/
def fracIndex : MenuIndex := fun s => if s = "a" then some fracMenuItem else none

/-- A served order created at time 0 with one sub-cent item. -/
def fracOrder : Order :=
  { id := "o", tableId := "t", status := .served, createdAt := 0,
    items := [ { menuItemId := "a", modifierName := none, qty := 1 } ] }

lemma daySum_frac : daySum 0 0 [fracOrder] fracIndex = 1/1000 := by
  have s2 : (OrderStatus.served == OrderStatus.paid
      || OrderStatus.served == OrderStatus.served) = true := rfl
  have hsame : isSameDay 0 (0 : Int) 0 = true := rfl
  simp only [daySum, fracOrder, List.filter_cons, List.filter_nil, s2, hsame, Bool.true_and,
    if_true, ite_true, List.foldl_cons, List.foldl_nil]
  simp [computeOrderTotal, fracIndex, fracMenuItem]

/-! ### Claim C3 -/

/-- Claim C3, counterexample: with a single served order of total 1/1000
created today, the last trend bucket holds the rounded value 0 while the
"Today" sum is 1/1000, so the bucket does not equal the unrounded sum. -/
theorem last14Days_last_bucket_cex :
    ¬ (((last14Days 0 0 [fracOrder] fracIndex).getLast?).map Prod.snd
        = some (daySum 0 0 [fracOrder] fracIndex)) := by
  rw [last14Days_getLast, daySum_frac]
  simp only [Option.map]
  rw [Option.some_inj]
  norm_num [round2, round_eq]

/-- Claim C3 (amended): the trend series always has exactly 14 buckets;
bucket `i` covers the calendar day lying `13 - i` days before today (so
the series is ordered oldest day first with today last), and the last
bucket's value equals the "Today" sales sum **rounded to 2 decimal
places**. -/
theorem last14Days_spec (tz now : Int) (orders : List Order) (idx : MenuIndex) :
    (last14Days tz now orders idx).length = 14
    ∧ (∀ i : Fin 14, ((last14Days tz now orders idx)[(i : Nat)]?).map Prod.fst
        = some (now - ((13 : Int) - (i : Nat)) * msPerDay))
    ∧ (∀ i : Fin 14, ((last14Days tz now orders idx)[(i : Nat)]?).map (fun b => startOfDay tz b.1)
        = some (startOfDay tz now - ((13 : Int) - (i : Nat)) * msPerDay))
    ∧ (last14Days tz now orders idx).getLast? = some (now, round2 (daySum tz now orders idx)) :=
  ⟨last14Days_length tz now orders idx,
   fun i => last14Days_day tz now orders idx i,
   fun i => last14Days_calday tz now orders idx i,
   last14Days_getLast tz now orders idx⟩


/-! ### Claim C7 -/

lemma daySum_eq_sum (tz now : Int) (orders : List Order) (idx : MenuIndex) :
    daySum tz now orders idx
      = ((orders.filter (fun o => (o.status == OrderStatus.paid || o.status == OrderStatus.served)
          && isSameDay tz o.createdAt now)).map (fun o => computeOrderTotal o idx)).sum := by
  unfold daySum
  rw [foldl_add_eq]
  ring

/-- Claim C7: an `in_progress` order contributes 0 to the "Today" sales
sum even when created on the current calendar day; after its status is
updated to `served` (all else unchanged) the "Today" sum increases by
exactly its `computeOrderTotal`. -/
theorem daySum_in_progress_spec (tz now : Int) (idx : MenuIndex) (o : Order)
    (l1 l2 : List Order)
    (h1 : o.status = .in_progress) (h2 : isSameDay tz o.createdAt now = true) :
    daySum tz now (l1 ++ o :: l2) idx = daySum tz now (l1 ++ l2) idx
    ∧ daySum tz now (l1 ++ ({ o with status := .served } :: l2)) idx
        = daySum tz now (l1 ++ l2) idx + computeOrderTotal o idx := by
  have hpo : ((o.status == OrderStatus.paid || o.status == OrderStatus.served)
      && isSameDay tz o.createdAt now) = false := by rw [h1]; rfl
  have hps : ((OrderStatus.served == OrderStatus.paid || OrderStatus.served == OrderStatus.served)
      && isSameDay tz o.createdAt now) = true := by rw [h2]; rfl
  have hco : computeOrderTotal { o with status := OrderStatus.served } idx
      = computeOrderTotal o idx := rfl
  constructor
  · rw [daySum_eq_sum, daySum_eq_sum, List.filter_append, List.filter_append, List.filter_cons,
      hpo]
    simp
  · rw [daySum_eq_sum, daySum_eq_sum, List.filter_append, List.filter_append, List.filter_cons]
    simp only [hps]
    simp [List.sum_append, hco]
    ring

/-- An empty menu index for witnesses. -/
def wIdx : MenuIndex := fun _ => none

/-- A concrete in-progress order created at time 0. -/
def wOrder : Order :=
  { id := "w", tableId := "t", items := [], status := .in_progress, createdAt := 0 }

/-- Witness for claim C7 at a concrete in-progress order created today. -/
theorem daySum_in_progress_witness :
    daySum 0 0 ([] ++ wOrder :: []) wIdx = daySum 0 0 ([] ++ []) wIdx
    ∧ daySum 0 0 ([] ++ ({ wOrder with status := .served } :: [])) wIdx
        = daySum 0 0 ([] ++ []) wIdx + computeOrderTotal wOrder wIdx :=
  daySum_in_progress_spec 0 0 wIdx wOrder [] [] rfl rfl


/-! ### Claims C5, C6, C9, C10 (state mutators) -/

/-- Claim C5: `createOrder` produces a new order with status `in_progress`
placed at the front of the order collection (all prior orders following
unchanged) and sets the referenced table's status to `occupied` regardless
of its prior status, preserving every table's id and name. -/
theorem createOrder_spec (s : AppState) (id : String) (now : Int) (tableId : String)
    (items : List OrderItem) :
    (createOrder s id now tableId items).orders.head?
      = some { id := id, tableId := tableId, items := items,
               status := .in_progress, createdAt := now }
    ∧ (createOrder s id now tableId items).orders.tail = s.orders
    ∧ ∀ i : Nat,
        (((createOrder s id now tableId items).tables[i]?).map (fun t => (t.id, t.name, t.status)))
          = ((s.tables[i]?).map (fun t =>
              (t.id, t.name, if t.id == tableId then TableStatus.occupied else t.status))) := by
  refine ⟨rfl, rfl, ?_⟩
  intro i
  simp only [createOrder, List.getElem?_map]
  cases s.tables[i]? with
  | none => rfl
  | some t =>
    by_cases h : t.id = tableId <;> simp [h]

/-- Claim C6: when the state contains an order with the given id (the
first match found), `updateOrderStatus(id, paid)` sets that order's table
to `needs_cleaning` regardless of its prior status, and `markTableClean`
sets the named table to `available` regardless of current status or any
open orders. -/
theorem updateOrderStatus_paid_spec (s : AppState) (orderId : String) (o : Order)
    (hfind : s.orders.find? (fun x => x.id == orderId) = some o) :
    (∀ i : Nat,
      (((updateOrderStatus s orderId .paid).tables[i]?).map (fun t => (t.id, t.status)))
        = ((s.tables[i]?).map (fun t =>
            (t.id, if t.id == o.tableId then TableStatus.needs_cleaning else t.status))))
    ∧ (∀ (s2 : AppState) (tableId : String) (i : Nat),
        (((markTableClean s2 tableId).tables[i]?).map (fun t => (t.id, t.status)))
          = ((s2.tables[i]?).map (fun t =>
              (t.id, if t.id == tableId then TableStatus.available else t.status)))) := by
  constructor
  · intro i
    simp only [updateOrderStatus, reduceIte, hfind, List.getElem?_map]
    cases s.tables[i]? with
    | none => rfl
    | some t =>
      by_cases h : t.id = o.tableId <;> simp [h]
  · intro s2 tableId i
    simp only [markTableClean, List.getElem?_map]
    cases s2.tables[i]? with
    | none => rfl
    | some t =>
      by_cases h : t.id = tableId <;> simp [h]

/-- A concrete occupied table for witnesses. -/
def wTable : Table := { id := "t1", name := "Table 1", status := .occupied }

/-- A concrete one-order, one-table state for witnesses. -/
def wState : AppState :=
  { menuItems := [],
    tables := [wTable],
    orders := [ { id := "o1", tableId := "t1", items := [], status := .served, createdAt := 0 } ] }

/-- Witness for claim C6 on a concrete one-order, one-table state. -/
theorem updateOrderStatus_paid_witness :
    (((updateOrderStatus wState "o1" .paid).tables[0]?).map (fun t => (t.id, t.status)))
      = ((wState.tables[0]?).map (fun t =>
          (t.id, if t.id == "t1" then TableStatus.needs_cleaning else t.status))) :=
  (updateOrderStatus_paid_spec wState "o1"
    { id := "o1", tableId := "t1", items := [], status := .served, createdAt := 0 } rfl).1 0

lemma tables_id_name_map (ts : List Table) (tid : String) (st2 : TableStatus) (i : Nat) :
    (((ts.map (fun t => if t.id == tid then { t with status := st2 } else t))[i]?).map
        (fun t => (t.id, t.name)))
      = ((ts[i]?).map (fun t => (t.id, t.name))) := by
  simp only [List.getElem?_map]
  cases ts[i]? with
  | none => rfl
  | some t =>
    by_cases h : t.id = tid <;> simp [h]

/-- Claim C9: each of `createOrder`, `updateOrderStatus` and
`markTableClean` preserves the table collection's length and each table's
id and name at every position; tables are never created or deleted. -/
theorem mutators_preserve_tables (s : AppState) (id : String) (now : Int) (tableId : String)
    (items : List OrderItem) (orderId : String) (st : OrderStatus) (tid : String) :
    ((createOrder s id now tableId items).tables.length = s.tables.length
      ∧ ∀ i : Nat, (((createOrder s id now tableId items).tables[i]?).map (fun t => (t.id, t.name)))
          = ((s.tables[i]?).map (fun t => (t.id, t.name))))
    ∧ ((updateOrderStatus s orderId st).tables.length = s.tables.length
      ∧ ∀ i : Nat, (((updateOrderStatus s orderId st).tables[i]?).map (fun t => (t.id, t.name)))
          = ((s.tables[i]?).map (fun t => (t.id, t.name))))
    ∧ ((markTableClean s tid).tables.length = s.tables.length
      ∧ ∀ i : Nat, (((markTableClean s tid).tables[i]?).map (fun t => (t.id, t.name)))
          = ((s.tables[i]?).map (fun t => (t.id, t.name)))) := by
  refine ⟨⟨by simp [createOrder], fun i => tables_id_name_map s.tables tableId .occupied i⟩,
    ⟨?_, ?_⟩,
    ⟨by simp [markTableClean], fun i => tables_id_name_map s.tables tid .available i⟩⟩
  · by_cases hst : st = .paid
    · simp only [updateOrderStatus, hst, reduceIte]
      cases hfind : s.orders.find? (fun o => o.id == orderId) with
      | none => rfl
      | some o => simp
    · simp [updateOrderStatus, hst]
  · intro i
    by_cases hst : st = .paid
    · simp only [updateOrderStatus, hst, reduceIte]
      cases hfind : s.orders.find? (fun o => o.id == orderId) with
      | none => rfl
      | some o => exact tables_id_name_map s.tables o.tableId .needs_cleaning i
    · simp [updateOrderStatus, hst]

/-- Claim C10: when no order matches the given id, `updateOrderStatus`
leaves both the order collection and the table collection unchanged, for
every new status including `paid`. -/
theorem updateOrderStatus_unknown_id (s : AppState) (orderId : String) (st : OrderStatus)
    (h : ∀ o ∈ s.orders, o.id ≠ orderId) :
    (updateOrderStatus s orderId st).orders = s.orders
    ∧ (updateOrderStatus s orderId st).tables = s.tables := by
  have hid : ∀ o ∈ s.orders, (if o.id == orderId then { o with status := st } else o) = o := by
    intro o ho
    simp [h o ho]
  have hfind : s.orders.find? (fun o => o.id == orderId) = none := by
    rw [List.find?_eq_none]
    intro x hx
    simp [h x hx]
  constructor
  · simp only [updateOrderStatus]
    rw [List.map_congr_left hid]; simp
  · by_cases hst : st = .paid
    · simp [updateOrderStatus, hst, hfind]
    · simp [updateOrderStatus, hst]

/-- Witness for claim C10 at a state with no matching order id. -/
theorem updateOrderStatus_unknown_id_witness :
    (updateOrderStatus wState "nope" .paid).orders = wState.orders
    ∧ (updateOrderStatus wState "nope" .paid).tables = wState.tables :=
  updateOrderStatus_unknown_id wState "nope" .paid (by decide)


/-! ### Claim C8 -/

/-- Claim C8: `computeOrderTotal` is invariant under any permutation of
the order's item list, and an order with an empty item list totals 0. -/
theorem computeOrderTotal_perm_invariant :
    (∀ (o : Order) (idx : MenuIndex) (l2 : List OrderItem),
      o.items.Perm l2 → computeOrderTotal { o with items := l2 } idx = computeOrderTotal o idx)
    ∧ (∀ (o : Order) (idx : MenuIndex), o.items = [] → computeOrderTotal o idx = 0) := by
  constructor
  · intro o idx l2 hp
    rw [computeOrderTotal_eq_sum, computeOrderTotal_eq_sum]
    have hi : ({ o with items := l2 } : Order).items = l2 := rfl
    rw [hi]
    exact ((hp.map (amendedLine idx)).sum_eq).symm
  · intro o idx h
    rw [computeOrderTotal_eq_sum, h]
    simp

/-- A concrete order item for witnesses. -/
def wItemA : OrderItem := { menuItemId := "a", modifierName := none, qty := 1 }

/-- A second concrete order item for witnesses. -/
def wItemB : OrderItem := { menuItemId := "b", modifierName := none, qty := 2 }

/-- A concrete two-item order for witnesses. -/
def wOrder2 : Order :=
  { id := "p", tableId := "t", items := [wItemA, wItemB], status := .served, createdAt := 0 }

/-- Witness for claim C8: a concrete two-item swap and the empty order. -/
theorem computeOrderTotal_perm_witness :
    computeOrderTotal { wOrder2 with items := [wItemB, wItemA] } wIdx
        = computeOrderTotal wOrder2 wIdx
    ∧ computeOrderTotal wOrder wIdx = 0 :=
  ⟨computeOrderTotal_perm_invariant.1 wOrder2 wIdx [wItemB, wItemA] (by decide),
   computeOrderTotal_perm_invariant.2 wOrder wIdx rfl⟩


/-! ### Claim C4 (top sellers) -/

/-- Item-level form of the top-seller aggregation. -/
def aggItems (its : List OrderItem) : List (String × ℚ) :=
  its.foldl (fun a it => bump a it.menuItemId it.qty) []

/-- Aggregated quantity of one id over a flat item list. -/
def qtySum (its : List OrderItem) (id : String) : ℚ :=
  ((its.filter (fun it => it.menuItemId == id)).map OrderItem.qty).sum

lemma foldl_items (g : List (String × ℚ) → OrderItem → List (String × ℚ)) :
    ∀ (os : List Order) (acc : List (String × ℚ)),
      os.foldl (fun a o => o.items.foldl g a) acc = (os.flatMap (fun o => o.items)).foldl g acc
  | [], acc => by simp
  | o :: os, acc => by
    rw [List.foldl_cons, foldl_items g os, List.flatMap_cons, List.foldl_append]

lemma aggQty_eq_aggItems (os : List Order) :
    aggQty os = aggItems (os.flatMap (fun o => o.items)) := by
  unfold aggQty aggItems
  rw [foldl_items]

lemma totalQty_eq_qtySum (os : List Order) (id : String) :
    totalQty os id = qtySum (os.flatMap (fun o => o.items)) id := by
  induction os with
  | nil => simp [totalQty, qtySum]
  | cons o os ih =>
    simp only [totalQty, qtySum, List.flatMap_cons, List.filter_append, List.map_append,
      List.sum_append, List.map_cons, List.sum_cons] at *
    rw [ih]

lemma encounters_eq (os : List Order) :
    encounters os = (os.flatMap (fun o => o.items)).map (fun it => it.menuItemId) := by
  induction os with
  | nil => simp [encounters]
  | cons o os ih =>
    simp only [encounters, List.flatMap_cons, List.map_append] at *
    rw [ih]

lemma mem_foldl_keys :
    ∀ (l : List String) (acc : List String) (x : String),
      x ∈ l.foldl (fun acc k => if k ∈ acc then acc else acc ++ [k]) acc ↔ x ∈ acc ∨ x ∈ l
  | [], acc, x => by simp
  | k :: l, acc, x => by
    rw [List.foldl_cons, mem_foldl_keys l]
    by_cases hk : k ∈ acc
    · simp only [hk, if_true, List.mem_cons]
      constructor
      · rintro (h | h)
        · exact Or.inl h
        · exact Or.inr (Or.inr h)
      · rintro (h | h | h)
        · exact Or.inl h
        · exact Or.inl (h ▸ hk)
        · exact Or.inr h
    · simp only [hk, if_false, List.mem_append, List.mem_singleton, List.mem_cons]
      tauto

lemma nodup_foldl_keys :
    ∀ (l : List String) (acc : List String), acc.Nodup →
      (l.foldl (fun acc k => if k ∈ acc then acc else acc ++ [k]) acc).Nodup
  | [], acc, h => by simpa using h
  | k :: l, acc, h => by
    rw [List.foldl_cons]
    apply nodup_foldl_keys l
    by_cases hk : k ∈ acc
    · simpa [hk] using h
    · simp [hk, List.nodup_append, h]

lemma mem_firstOccKeys (l : List String) (x : String) : x ∈ firstOccKeys l ↔ x ∈ l := by
  unfold firstOccKeys
  rw [mem_foldl_keys]
  simp

lemma nodup_firstOccKeys (l : List String) : (firstOccKeys l).Nodup :=
  nodup_foldl_keys l [] List.nodup_nil

lemma firstOccKeys_append_singleton (l : List String) (k : String) :
    firstOccKeys (l ++ [k])
      = if k ∈ firstOccKeys l then firstOccKeys l else firstOccKeys l ++ [k] := by
  unfold firstOccKeys
  rw [List.foldl_append]
  rfl

lemma bump_mem (g : String → ℚ) (k : String) (q : ℚ) :
    ∀ (ks : List String), ks.Nodup → k ∈ ks →
      bump (ks.map (fun id => (id, g id))) k q
        = ks.map (fun id => (id, if id = k then g id + q else g id))
  | [], _, hmem => by simp at hmem
  | a :: ks, hnd, hmem => by
    simp only [List.map_cons, bump]
    by_cases ha : a = k
    · subst ha
      have hnotin : a ∉ ks := (List.nodup_cons.mp hnd).1
      simp only [if_pos rfl, if_true]
      congr 1
      apply (List.map_congr_left ?_).symm
      intro id hid
      have : id ≠ a := fun h => hnotin (h ▸ hid)
      simp [this]
    · have hk : k ∈ ks := by
        rcases List.mem_cons.mp hmem with h | h
        · exact absurd h.symm ha
        · exact h
      rw [if_neg ha]
      rw [bump_mem g k q ks (List.nodup_cons.mp hnd).2 hk]
      simp [ha]

lemma bump_not_mem (g : String → ℚ) (k : String) (q : ℚ) :
    ∀ (ks : List String), k ∉ ks →
      bump (ks.map (fun id => (id, g id))) k q
        = ks.map (fun id => (id, g id)) ++ [(k, q)]
  | [], _ => by simp [bump]
  | a :: ks, hmem => by
    have ha : a ≠ k := fun h => hmem (h ▸ List.mem_cons_self a ks)
    have hk : k ∉ ks := fun h => hmem (List.mem_cons_of_mem a h)
    simp only [List.map_cons, bump, if_neg ha]
    rw [bump_not_mem g k q ks hk]
    simp

lemma qtySum_append_singleton (its : List OrderItem) (it : OrderItem) (id : String) :
    qtySum (its ++ [it]) id
      = qtySum its id + (if it.menuItemId = id then it.qty else 0) := by
  unfold qtySum
  rw [List.filter_append, List.map_append, List.sum_append]
  by_cases h : it.menuItemId = id
  · have hb : (it.menuItemId == id) = true := by simp [h]
    simp [List.filter, hb, h]
  · have hb : (it.menuItemId == id) = false := by simp [h]
    simp [List.filter, hb, h]

lemma qtySum_eq_zero (its : List OrderItem) (id : String)
    (h : id ∉ its.map (fun it => it.menuItemId)) : qtySum its id = 0 := by
  unfold qtySum
  have : its.filter (fun it => it.menuItemId == id) = [] := by
    rw [List.filter_eq_nil_iff]
    intro it hit
    simp only [beq_iff_eq]
    intro he
    exact h (he ▸ List.mem_map_of_mem (fun it => it.menuItemId) hit)
  rw [this]
  simp

lemma aggItems_eq (its : List OrderItem) :
    aggItems its = (firstOccKeys (its.map (fun it => it.menuItemId))).map
      (fun id => (id, qtySum its id)) := by
  induction its using List.reverseRecOn with
  | nil => simp [aggItems, firstOccKeys, qtySum]
  | append_singleton its it ih =>
    have hfold : aggItems (its ++ [it]) = bump (aggItems its) it.menuItemId it.qty := by
      unfold aggItems
      rw [List.foldl_append]
      rfl
    rw [hfold, ih, List.map_append, List.map_cons, List.map_nil,
      firstOccKeys_append_singleton]
    by_cases hk : it.menuItemId ∈ firstOccKeys (its.map (fun x => x.menuItemId))
    · rw [if_pos hk, bump_mem _ _ it.qty _ (nodup_firstOccKeys _) hk]
      apply List.map_congr_left
      intro id hid
      rw [qtySum_append_singleton]
      by_cases h : id = it.menuItemId
      · subst h
        simp
      · have hne : ¬(it.menuItemId = id) := fun hh => h hh.symm
        simp [h, hne]
    · rw [if_neg hk, bump_not_mem _ _ it.qty _ hk, List.map_append]
      congr 1
      · apply List.map_congr_left
        intro id hid
        rw [qtySum_append_singleton]
        have hne : ¬(it.menuItemId = id) := by
          intro hh
          exact hk (hh ▸ hid)
        simp [hne]
      · have h0 : qtySum its it.menuItemId = 0 := by
          apply qtySum_eq_zero
          intro hmem
          exact hk ((mem_firstOccKeys _ _).mpr hmem)
        simp only [List.map_cons, List.map_nil, qtySum_append_singleton, h0, if_pos rfl]
        norm_num

/-- The aggregation `Map` holds one entry per distinct `menuItemId`, in
first-encounter order, carrying the total quantity over all orders. -/
lemma aggQty_eq (os : List Order) :
    aggQty os = (firstOccKeys (encounters os)).map (fun id => (id, totalQty os id)) := by
  rw [aggQty_eq_aggItems, aggItems_eq, encounters_eq]
  apply List.map_congr_left
  intro id hid
  rw [totalQty_eq_qtySum]

lemma rows_eq_specRows (os : List Order) (idx : MenuIndex) :
    (aggQty os).map (fun p => (resolveName idx p.1, p.2)) = specRows os idx := by
  rw [aggQty_eq, List.map_map]
  apply List.map_congr_left
  intro id hid
  rfl

lemma qtyLE_trans (a b c : String × ℚ) : qtyLE a b → qtyLE b c → qtyLE a c := by
  simp only [qtyLE, decide_eq_true_eq]
  exact fun h1 h2 => le_trans h2 h1

lemma qtyLE_total (a b : String × ℚ) : qtyLE a b || qtyLE b a := by
  simp only [qtyLE, Bool.or_eq_true, decide_eq_true_eq]
  exact le_total b.2 a.2

lemma pairwise_filter_of_all {α : Type} (p : α → Bool) (R : α → α → Prop)
    (h : ∀ a b, p a = true → p b = true → R a b) :
    ∀ l : List α, (l.filter p).Pairwise R
  | [] => by simp
  | a :: l => by
    by_cases hp : p a = true
    · rw [List.filter_cons_of_pos hp]
      exact List.Pairwise.cons
        (fun b hb => h a b hp (List.of_mem_filter hb))
        (pairwise_filter_of_all p R h l)
    · rw [List.filter_cons_of_neg (by simpa using hp)]
      exact pairwise_filter_of_all p R h l

lemma filter_mergeSort_eq (l : List (String × ℚ)) (q : ℚ) :
    (l.mergeSort qtyLE).filter (fun r => decide (r.2 = q))
      = l.filter (fun r => decide (r.2 = q)) := by
  have hpair : (l.filter (fun r => decide (r.2 = q))).Pairwise (fun a b => qtyLE a b) := by
    apply pairwise_filter_of_all
    intro a b ha hb
    simp only [decide_eq_true_eq] at ha hb
    simp [qtyLE, ha, hb]
  have hsub : List.Sublist (l.filter (fun r => decide (r.2 = q))) (l.mergeSort qtyLE) :=
    List.sublist_mergeSort qtyLE_trans qtyLE_total hpair (List.filter_sublist l)
  have hsub2 : List.Sublist (l.filter (fun r => decide (r.2 = q)))
      ((l.mergeSort qtyLE).filter (fun r => decide (r.2 = q))) := by
    have := hsub.filter (fun r => decide (r.2 = q))
    rwa [List.filter_filter, (by funext r; simp : (fun r : String × ℚ =>
      (decide (r.2 = q) && decide (r.2 = q))) = (fun r => decide (r.2 = q)))] at this
  have hperm : List.Perm ((l.mergeSort qtyLE).filter (fun r => decide (r.2 = q)))
      (l.filter (fun r => decide (r.2 = q))) :=
    (List.mergeSort_perm l qtyLE).filter (fun r => decide (r.2 = q))
  exact (hsub2.eq_of_length hperm.length_eq.symm).symm

/-- Claim C4: the top-seller ranking aggregates `qty` per `menuItemId`
across all orders regardless of status, resolves ids to menu names with
the raw id as fallback (both captured by `specRows`, which lists one row
per distinct id in first-encounter order with its total quantity), sorts
descending by aggregated quantity, keeps ties in first-encounter order,
and truncates to at most 7 entries.  The first conjunct pins the result
exactly: it is the 7-element prefix of the stable descending sort of the
spec rows, so the retained rows are the top-ranked ones; the remaining
conjuncts spell out the truncated length, the descending order, and that
rows of equal quantity appear as a sublist of the spec rows, preserving
their first-encounter order. -/
theorem topSellers_spec (orders : List Order) (idx : MenuIndex) :
    topSellers orders idx = ((specRows orders idx).mergeSort qtyLE).take 7
    ∧ (topSellers orders idx).length = min 7 (specRows orders idx).length
    ∧ List.Pairwise (fun a b : String × ℚ => b.2 ≤ a.2) (topSellers orders idx)
    ∧ ∀ q : ℚ, List.Sublist
        ((topSellers orders idx).filter (fun r : String × ℚ => decide (r.2 = q)))
        ((specRows orders idx).filter (fun r : String × ℚ => decide (r.2 = q))) := by
  refine ⟨?_, ?_, ?_, ?_⟩
  · unfold topSellers
    rw [rows_eq_specRows]
  · unfold topSellers
    rw [rows_eq_specRows, List.length_take, List.length_mergeSort]
  · unfold topSellers
    have hp : List.Pairwise (fun a b => qtyLE a b = true)
        (((aggQty orders).map (fun p => (resolveName idx p.1, p.2))).mergeSort qtyLE) :=
      List.sorted_mergeSort qtyLE_trans qtyLE_total _
    have hp2 := List.Pairwise.sublist (List.take_sublist 7 _) hp
    exact hp2.imp (fun h => by simpa [qtyLE, decide_eq_true_eq] using h)
  · intro q
    unfold topSellers
    rw [rows_eq_specRows]
    have h2 := filter_mergeSort_eq (specRows orders idx) q
    have h1 : List.Sublist
        ((((specRows orders idx).mergeSort qtyLE).take 7).filter (fun r => decide (r.2 = q)))
        (((specRows orders idx).mergeSort qtyLE).filter (fun r => decide (r.2 = q))) :=
      (List.take_sublist 7 _).filter (fun r : String × ℚ => decide (r.2 = q))
    rwa [h2] at h1

end Foodie
